import Mathlib

/-!
Verification of the book-library bot's core workflow engine.

This file gives a shallow embedding, in Lean, of the submission/approval
workflow and leaderboard aggregation engine of the repository
(utils.py together with the approval/rejection callback logic in main.py),
and proves or refutes the specified properties of that engine.

Modelling conventions:
* ISO-8601 date strings are represented by the result of parsing them
  (datetime.fromisoformat): an integer timestamp when they parse,
  nothing when parsing raises.  Ordering of timestamps mirrors ordering
  of the underlying instants; a duration of d days is d * 86400.
* The current wall-clock time (datetime.now) is passed explicitly as a
  parameter named now.
* Store persistence (load_storage / save_storage round-trips through
  storage.json) is modelled by explicit state passing: every operation
  receives the current Store value and returns the Store value it saves.
* Python dicts iterate in insertion order; the leaderboard accumulator
  dict is therefore modelled as an insertion-ordered association list.
* list.sort(key=..., reverse=True) is CPython's stable sort run
  descending on the key; it is modelled by List.mergeSort with the
  reflexive total comparison countDesc, which is likewise stable.
-/

namespace BookLibrary

/-- The parse result of a date string field: some t when
datetime.fromisoformat succeeds and yields timestamp t, none when it raises. -/
abbrev DateVal := Option Int

/-- A user record, as stored in the users array of storage.json
(see add_user in utils.py). -/
structure User where
  id : Int
  username : String
  first_name : String
  joined_date : Int
  last_seen : Int
deriving DecidableEq, Repr

/-- A book submission record, as stored in the books array of storage.json
(see add_book_submission in utils.py).  The approved_date field is
None until approval (modelled as none); once set it is a date string,
represented by its parse result (some (some t) parses to t, some none is
present but unparseable). -/
structure Book where
  id : String
  title : String
  author : String
  submitter_id : Int
  submitter_username : String
  submitter_name : String
  gdrive_link : String
  file_id : String
  timestamp : DateVal
  approved : Bool
  approved_date : Option DateVal
  approved_by : Option String
deriving DecidableEq, Repr

/-- The persisted storage.json document: two top-level arrays. -/
structure Store where
  users : List User
  books : List Book
deriving DecidableEq, Repr

/-! ### User upsert (add_user, utils.py lines 39-70) -/

/-- The scan loop of add_user: walk the users list, and on the first user
whose id matches, overwrite username, first_name and last_seen in place.
Returns none when no user matches. -/
def updateUserScan (user_id : Int) (username first_name : String) (now : Int) :
    List User → Option (List User)
  | [] => none
  | u :: rest =>
    if u.id = user_id then
      some ({ u with username := username, first_name := first_name, last_seen := now } :: rest)
    else
      (updateUserScan user_id username first_name now rest).map (u :: ·)

/-- add_user (utils.py): update the first user with the given id in place,
or append a brand-new user whose joined_date and last_seen are both now. -/
def add_user (s : Store) (user_id : Int) (username first_name : String) (now : Int) : Store :=
  match updateUserScan user_id username first_name now s.users with
  | some us => { s with users := us }
  | none =>
    { s with
        users := s.users ++
          [{ id := user_id, username := username, first_name := first_name,
             joined_date := now, last_seen := now }] }

/-! ### Link normalization (validate_google_drive_link, utils.py lines 72-94)

The three regex patterns are over ASCII character lists.  re.search finds
the leftmost position at which the whole pattern matches; the character
class is [a-zA-Z0-9-_] and the + quantifier is greedy. -/

/-- Membership in the regex character class [a-zA-Z0-9-_]. -/
def isIdChar (c : Char) : Bool :=
  (('a' ≤ c && c ≤ 'z') || ('A' ≤ c && c ≤ 'Z') || ('0' ≤ c && c ≤ '9')
    || c == '-' || c == '_')

/-- Does the literal lit occur at the very start of s? -/
def isPrefixChars : List Char → List Char → Bool
  | [], _ => true
  | _ :: _, [] => false
  | a :: as, b :: bs => a == b && isPrefixChars as bs

/-- Substring containment (the Python in operator on str). -/
def containsSub : List Char → List Char → Bool
  | [], sub => sub.isEmpty
  | c :: rest, sub => isPrefixChars sub (c :: rest) || containsSub rest sub

/-- re.search for a pattern of the form lit([a-zA-Z0-9-_]+): find the
leftmost position where the literal lit is followed by at least one
id character, and return the greedily captured group. -/
def searchPat (lit : List Char) : List Char → Option (List Char)
  | [] => none
  | c :: rest =>
    if isPrefixChars lit (c :: rest) then
      if (((c :: rest).drop lit.length).takeWhile isIdChar).isEmpty then searchPat lit rest
      else some (((c :: rest).drop lit.length).takeWhile isIdChar)
    else searchPat lit rest

/-- The canonical sharing URL built from an extracted file id
(the sharing_link f-string in validate_google_drive_link). -/
def canonicalList (fid : List Char) : List Char :=
  "https://drive.google.com/file/d/".data ++ fid ++ "/view?usp=sharing".data

/-- Body of validate_google_drive_link on character lists: empty links and
links not mentioning drive.google.com pass through; otherwise the three
file-id patterns are tried in order and the first match is rewritten to
the canonical sharing URL; if none match the link passes through. -/
def validateCore (link : List Char) : List Char :=
  if link.isEmpty || !containsSub link "drive.google.com".data then link
  else
    match searchPat "/file/d/".data link with
    | some fid => canonicalList fid
    | none =>
      match searchPat "id=".data link with
      | some fid => canonicalList fid
      | none =>
        match searchPat "/d/".data link with
        | some fid => canonicalList fid
        | none => link

/-- validate_google_drive_link (utils.py lines 72-94). -/
def validate_google_drive_link (link : String) : String :=
  String.mk (validateCore link.data)

/-! ### Approval (approve_book, utils.py lines 143-162) -/

/-- The three in-place field writes performed by approve_book on the book
it finds: approved becomes true, approved_date becomes the current time,
approved_by becomes the approver; every other field is untouched. -/
def approvedVersion (b : Book) (approved_by : String) (now : Int) : Book :=
  { b with approved := true, approved_date := some (some now), approved_by := some approved_by }

/-- The scan loop of approve_book: find the first book with the given id,
set its three approval fields, and return the updated list together with
the post-mutation snapshot of that book. -/
def approveScan (book_id approved_by : String) (now : Int) :
    List Book → Option (List Book × Book)
  | [] => none
  | b :: rest =>
    if b.id = book_id then
      some (approvedVersion b approved_by now :: rest, approvedVersion b approved_by now)
    else
      (approveScan book_id approved_by now rest).map (fun p => (b :: p.1, p.2))

/-- approve_book (utils.py): on success returns (true, snapshot) and saves
the mutated store; when the id is unknown returns (false, none) and the
store is not written. -/
def approve_book (s : Store) (book_id approved_by : String) (now : Int) :
    (Bool × Option Book) × Store :=
  match approveScan book_id approved_by now s.books with
  | some p => ((true, some p.2), { s with books := p.1 })
  | none => ((false, none), s)

/-! ### Rejection (the reject branch of handle_approval_callback,
main.py lines 451-455) -/

/-- The store mutation of the reject action: keep exactly the books whose
id differs from the rejected id (an unconditional delete-by-id). -/
def reject_book (s : Store) (book_id : String) : Store :=
  { s with books := s.books.filter (fun b => b.id != book_id) }

/-- The reject branch of the callback handler: it rewrites the store and
unconditionally acknowledges with the fixed callback answer text - no
lookup of the id is performed and no failure is ever reported. -/
def handle_reject (s : Store) (book_id : String) : Store × String :=
  (reject_book s book_id, "❌ Book rejected.")

/-! ### Retention cleanup (clean_old_data, utils.py lines 346-372) -/

/-- clean_old_data (utils.py): keep books that are approved or whose
submission timestamp is at least the cutoff now - days * 86400; a book
whose timestamp fails to parse raises inside the loop, in which case the
surrounding try/except returns false and the store is never written.
Returns the store that is saved together with the boolean result. -/
def clean_old_data (s : Store) (days : Int) (now : Int) : Store × Bool :=
  if s.books.all (fun b => b.timestamp.isSome) then
    ({ s with
        books := s.books.filter (fun b =>
          b.approved ||
            (match b.timestamp with
             | some t => decide (now - days * 86400 ≤ t)
             | none => false)) },
      true)
  else
    (s, false)

/-! ### Leaderboard (get_leaderboard_by_period, utils.py lines 176-227) -/

/-- The period filter of get_leaderboard_by_period: all approved books
when days is none; otherwise the approved books whose approved_date is
present, parses, and is at least the cutoff now - days * 86400 (books with
a missing or unparseable approved_date are skipped by the continue). -/
def filtered_books (s : Store) (days : Option Int) (now : Int) : List Book :=
  match days with
  | none => s.books.filter (fun b => b.approved)
  | some d =>
    s.books.filter (fun b =>
      b.approved &&
        (match b.approved_date with
         | some (some t) => decide (now - d * 86400 ≤ t)
         | _ => false))

/-- One per-user entry of the user_contributions dict. -/
structure UC where
  count : Nat
  username : String
  name : String
deriving DecidableEq, Repr

/-- The user_info dict placed in each leaderboard tuple. -/
structure UserInfo where
  id : Int
  username : String
  name : String
deriving DecidableEq, Repr

/-- One loop iteration over filtered_books: in the insertion-ordered dict,
bump the count of an existing entry in place, or append a new entry with
count 1 carrying the current book's submitter username and name
(the username and name of an existing entry are never touched). -/
def bumpUser (acc : List (Int × UC)) (b : Book) : List (Int × UC) :=
  match acc with
  | [] => [(b.submitter_id, ⟨1, b.submitter_username, b.submitter_name⟩)]
  | p :: rest =>
    if p.1 = b.submitter_id then
      (p.1, { p.2 with count := p.2.count + 1 }) :: rest
    else
      p :: bumpUser rest b

/-- The whole contribution-counting loop of get_leaderboard_by_period. -/
def tally : List Book → List (Int × UC) → List (Int × UC)
  | [], acc => acc
  | b :: rest, acc => tally rest (bumpUser acc b)

/-- The unsorted leaderboard list: the user_contributions dict rendered,
in insertion order, as (user_info, count) tuples. -/
def leaderboard_entries (s : Store) (days : Option Int) (now : Int) :
    List (UserInfo × Nat) :=
  (tally (filtered_books s days now) []).map
    (fun p => (⟨p.1, p.2.username, p.2.name⟩, p.2.count))

/-- The comparison used to sort the leaderboard: descending by count.
countDesc a b is true when a may come before b. -/
def countDesc (a b : UserInfo × Nat) : Bool := decide (b.2 ≤ a.2)

/-- get_leaderboard_by_period (utils.py): filter, count, sort descending
by count with CPython's stable sort, truncate to the top 10. -/
def get_leaderboard_by_period (s : Store) (days : Option Int) (now : Int) :
    List (UserInfo × Nat) :=
  ((leaderboard_entries s days now).mergeSort countDesc).take 10

/-- get_weekly_leaderboard (utils.py line 164). -/
def get_weekly_leaderboard (s : Store) (now : Int) : List (UserInfo × Nat) :=
  get_leaderboard_by_period s (some 7) now

/-- get_alltime_leaderboard (utils.py line 172). -/
def get_alltime_leaderboard (s : Store) (now : Int) : List (UserInfo × Nat) :=
  get_leaderboard_by_period s none now

/-! ### Lookup helpers over the insertion-ordered accumulator -/

/-- Look up the entry of a user id in the accumulator (first match). -/
def lookupUC : List (Int × UC) → Int → Option UC
  | [], _ => none
  | p :: rest, uid => if p.1 = uid then some p.2 else lookupUC rest uid

/-- The contribution count recorded for a user id (0 when absent). -/
def countOf (acc : List (Int × UC)) (uid : Int) : Nat :=
  match lookupUC acc uid with
  | some uc => uc.count
  | none => 0

/-- The username/display-name pair recorded for a user id. -/
def unameOf (acc : List (Int × UC)) (uid : Int) : Option (String × String) :=
  (lookupUC acc uid).map (fun uc => (uc.username, uc.name))

/-- The keys of the accumulator, in insertion order. -/
def ucKeys (acc : List (Int × UC)) : List Int := acc.map Prod.fst

/-! ## Concrete fixtures used by witnesses and counterexamples -/

/-- A submission record with the given id, submitter, timestamps and
approval state; the remaining fields are fixed harmless values. -/
def mkBook (id : String) (uid : Int) (uname dname : String) (ts : DateVal)
    (appr : Bool) (adate : Option DateVal) (aby : Option String) : Book :=
  { id := id, title := "T", author := "A", submitter_id := uid,
    submitter_username := uname, submitter_name := dname, gdrive_link := "",
    file_id := "", timestamp := ts, approved := appr, approved_date := adate,
    approved_by := aby }

/-- An already-approved submission. -/
def approvedBook : Book := mkBook "b1" 1 "u" "n" (some 0) true (some (some 50)) (some "admin")

/-- A store whose only submission is already approved. -/
def approvedStore : Store := { users := [], books := [approvedBook] }

/-- A store with a single pending submission. -/
def pendingBook : Book := mkBook "p1" 2 "ua" "na" (some 0) false none none

/-- A store whose only submission is pending. -/
def pendingStore : Store := { users := [], books := [pendingBook] }

/-! ## Scan-loop lemmas -/

/-- approveScan finds nothing when no book carries the id. -/
theorem approveScan_none (book_id approved_by : String) (now : Int)
    (bs : List Book) (h : ∀ b ∈ bs, b.id ≠ book_id) :
    approveScan book_id approved_by now bs = none := by
  induction bs with
  | nil => rfl
  | cons a rest ih =>
    have ha : a.id ≠ book_id := h a (by simp)
    simp only [approveScan, if_neg ha, ih (fun b hb => h b (by simp [hb]))]
    rfl

/-- approveScan rewrites exactly the first book whose id matches, leaving
everything before and after it untouched, and returns its post-mutation
snapshot. -/
theorem approveScan_split (book_id approved_by : String) (now : Int)
    (l1 l2 : List Book) (b : Book)
    (h1 : ∀ b2 ∈ l1, b2.id ≠ book_id) (hid : b.id = book_id) :
    approveScan book_id approved_by now (l1 ++ b :: l2) =
      some (l1 ++ approvedVersion b approved_by now :: l2,
            approvedVersion b approved_by now) := by
  induction l1 with
  | nil => simp [approveScan, hid]
  | cons a as ih =>
    have ha : a.id ≠ book_id := h1 a (by simp)
    simp only [List.cons_append, approveScan, if_neg ha, List.append_eq,
      ih (fun b2 hb2 => h1 b2 (by simp [hb2]))]
    rfl

/-- updateUserScan finds nothing when no user carries the id. -/
theorem updateUserScan_none (user_id : Int) (username first_name : String)
    (now : Int) (us : List User) (h : ∀ v ∈ us, v.id ≠ user_id) :
    updateUserScan user_id username first_name now us = none := by
  induction us with
  | nil => rfl
  | cons a rest ih =>
    have ha : a.id ≠ user_id := h a (by simp)
    simp only [updateUserScan, if_neg ha, ih (fun v hv => h v (by simp [hv]))]
    rfl

/-- updateUserScan rewrites exactly the first user whose id matches,
overwriting only username, first_name and last_seen. -/
theorem updateUserScan_split (user_id : Int) (username first_name : String)
    (now : Int) (l1 l2 : List User) (u : User)
    (h1 : ∀ v ∈ l1, v.id ≠ user_id) (hid : u.id = user_id) :
    updateUserScan user_id username first_name now (l1 ++ u :: l2) =
      some (l1 ++ { u with username := username, first_name := first_name, last_seen := now } :: l2) := by
  induction l1 with
  | nil => simp [updateUserScan, hid]
  | cons a as ih =>
    have ha : a.id ≠ user_id := h1 a (by simp)
    simp only [List.cons_append, updateUserScan, if_neg ha, List.append_eq,
      ih (fun v hv => h1 v (by simp [hv]))]
    rfl

/-! ## C1 -/

/-- C1: the claim says an approved submission is never removable via the
reject operation.  The code disagrees: the reject branch of
handle_approval_callback filters the books list by id unconditionally, so
rejecting the id of an approved submission silently deletes the approved
record.  This theorem evaluates the code at the failing input: a store
whose only book is approved, rejected by its own id. -/
theorem reject_deletes_approved_record :
    approvedBook.approved = true ∧
    approvedBook ∈ approvedStore.books ∧
    (reject_book approvedStore "b1").books = [] := by decide

/-! ## C4 -/

/-- C4: approve_book on a store containing the submission id sets exactly
approved, approved_date and approved_by on the first matching submission,
persists the resulting store, and returns success with the full
post-mutation snapshot; the books before and after it, the users, and all
its other fields are unchanged. -/
theorem approve_book_found_spec (s : Store) (book_id approved_by : String)
    (now : Int) (l1 l2 : List Book) (b : Book)
    (hsplit : s.books = l1 ++ b :: l2)
    (hfirst : ∀ b2 ∈ l1, b2.id ≠ book_id)
    (hid : b.id = book_id) :
    approve_book s book_id approved_by now =
      ((true, some (approvedVersion b approved_by now)),
       { s with books := l1 ++ approvedVersion b approved_by now :: l2 }) := by
  unfold approve_book
  rw [hsplit, approveScan_split book_id approved_by now l1 l2 b hfirst hid]

/-- Witness for C4: approving the single pending submission of a concrete
store produces the approved snapshot and the mutated store. -/
theorem approve_book_found_spec_witness :
    approve_book pendingStore "p1" "admin1" 500 =
      ((true, some (approvedVersion pendingBook "admin1" 500)),
       { pendingStore with books := [approvedVersion pendingBook "admin1" 500] }) :=
  approve_book_found_spec pendingStore "p1" "admin1" 500 [] [] pendingBook rfl
    (by simp) rfl

/-! ## C3 -/

/-- C3 as amended: on an id matching no stored submission, approve_book
returns the failure pair (false, none) and leaves the store unchanged,
and the reject action also leaves the store unchanged - but reject
reports no structured failure: it acknowledges with the same fixed
success text it uses when a book really is deleted. -/
theorem unknown_id_spec (s : Store) (book_id approved_by : String) (now : Int)
    (h : ∀ b ∈ s.books, b.id ≠ book_id) :
    approve_book s book_id approved_by now = ((false, none), s) ∧
    handle_reject s book_id = (s, "❌ Book rejected.") := by
  constructor
  · unfold approve_book
    rw [approveScan_none book_id approved_by now s.books h]
  · unfold handle_reject reject_book
    have hf : s.books.filter (fun b => b.id != book_id) = s.books :=
      List.filter_eq_self.mpr (fun b hb => by simp [h b hb])
    rw [hf]

/-- Witness for C3's amended statement on a concrete store. -/
theorem unknown_id_spec_witness :
    approve_book approvedStore "zz" "a" 0 = ((false, none), approvedStore) ∧
    handle_reject approvedStore "zz" = (approvedStore, "❌ Book rejected.") :=
  unknown_id_spec approvedStore "zz" "a" 0 (by decide)

/-- Counterexample for C3 as stated: the claim says reject of an unknown
id reports a structured failure.  The code's reject acknowledgment on an
unknown id is byte-identical to its acknowledgment when an existing book
is deleted, and nothing else in its result signals failure - so no
structured failure is reported. -/
theorem reject_unknown_id_no_failure_counterexample :
    (handle_reject approvedStore "missing").2 = (handle_reject approvedStore "b1").2 ∧
    (handle_reject approvedStore "missing").1 = approvedStore ∧
    (handle_reject approvedStore "b1").1 ≠ approvedStore := by decide

/-! ## C9 -/

/-- C9: add_user with an existing id overwrites only that user's username,
first_name and last_seen, keeping joined_date and every other user intact;
with a fresh id it appends a new user whose joined_date and last_seen both
equal now.  In both cases the books and the other users are unchanged. -/
theorem add_user_upsert_spec (s : Store) (user_id : Int)
    (username first_name : String) (now : Int) (l1 l2 : List User) (u : User) :
    (s.users = l1 ++ u :: l2 → (∀ v ∈ l1, v.id ≠ user_id) → u.id = user_id →
      add_user s user_id username first_name now =
        { s with users := l1 ++ { u with username := username, first_name := first_name, last_seen := now } :: l2 })
    ∧ ((∀ v ∈ s.users, v.id ≠ user_id) →
      add_user s user_id username first_name now =
        { s with users := s.users ++ [{ id := user_id, username := username, first_name := first_name, joined_date := now, last_seen := now }] }) := by
  constructor
  · intro hsplit hfirst hid
    unfold add_user
    rw [hsplit, updateUserScan_split user_id username first_name now l1 l2 u hfirst hid]
  · intro h
    unfold add_user
    rw [updateUserScan_none user_id username first_name now s.users h]

/-- A user fixture for C9's witness. -/
def demoUser : User :=
  { id := 1, username := "u1", first_name := "n1", joined_date := 10, last_seen := 20 }

/-- A store holding only demoUser. -/
def demoUserStore : Store := { users := [demoUser], books := [] }

/-- Witness for C9: both branches applied on a concrete store. -/
theorem add_user_upsert_spec_witness :
    add_user demoUserStore 1 "u2" "n2" 100 =
      { demoUserStore with
          users := [{ demoUser with username := "u2", first_name := "n2", last_seen := 100 }] } ∧
    add_user demoUserStore 99 "u9" "n9" 100 =
      { demoUserStore with
          users := demoUserStore.users ++ [{ id := 99, username := "u9", first_name := "n9", joined_date := 100, last_seen := 100 }] } :=
  ⟨(add_user_upsert_spec demoUserStore 1 "u2" "n2" 100 [] [] demoUser).1 rfl
      (by simp) rfl,
   (add_user_upsert_spec demoUserStore 99 "u9" "n9" 100 [] [] demoUser).2
      (by decide)⟩

/-! ## C5 -/

/-- C5: when every stored timestamp parses, cleanup succeeds, never adds
or reorders books, and a stored book survives exactly when it is approved
or its submission timestamp is at least the cutoff now - days * 86400;
approved submissions are retained unconditionally regardless of age. -/
theorem clean_old_data_spec (s : Store) (days now : Int) (b : Book)
    (hparse : ∀ b2 ∈ s.books, (b2.timestamp).isSome = true)
    (hb : b ∈ s.books) :
    (clean_old_data s days now).2 = true ∧
    (clean_old_data s days now).1.books.Sublist s.books ∧
    (b ∈ (clean_old_data s days now).1.books ↔
      b.approved = true ∨ ∃ t, b.timestamp = some t ∧ now - days * 86400 ≤ t) := by
  have hall : s.books.all (fun b2 => b2.timestamp.isSome) = true :=
    List.all_eq_true.mpr (fun x hx => hparse x hx)
  have hcd : clean_old_data s days now =
      ({ s with
          books := s.books.filter (fun b2 =>
            b2.approved ||
              (match b2.timestamp with
               | some t => decide (now - days * 86400 ≤ t)
               | none => false)) },
        true) := by
    unfold clean_old_data
    rw [hall]
    rfl
  rw [hcd]
  refine ⟨rfl, List.filter_sublist _, ?_⟩
  rw [List.mem_filter]
  have hsome := hparse b hb
  constructor
  · rintro ⟨-, hp⟩
    rcases Bool.or_eq_true _ _ |>.mp hp with happ | hts
    · exact Or.inl happ
    · match hts2 : b.timestamp with
      | some t =>
        rw [hts2] at hts
        exact Or.inr ⟨t, rfl, of_decide_eq_true hts⟩
      | none =>
        rw [hts2] at hts
        exact absurd hts (by simp)
  · rintro (happ | ⟨t, ht, hle⟩)
    · exact ⟨hb, by rw [happ]; rfl⟩
    · refine ⟨hb, ?_⟩
      rw [ht]
      simp [hle]

/-- A configuration matching the spec's cleanup example: with day-length
86400 and now = 200 * 86400, an unapproved submission 100 days old is
dropped by cleanup 90 while an unapproved one 10 days old and an approved
one 200 days old survive.  The witness applies the theorem to the old
unapproved book. -/
def cleanupStore : Store :=
  { users := [],
    books := [mkBook "old" 1 "u" "n" (some (100 * 86400)) false none none,
              mkBook "new" 1 "u" "n" (some (190 * 86400)) false none none,
              mkBook "anc" 1 "u" "n" (some 0) true (some (some 10)) (some "a")] }

/-- Witness for C5 on the spec's example store. -/
theorem clean_old_data_spec_witness :
    (clean_old_data cleanupStore 90 (200 * 86400)).2 = true ∧
    (clean_old_data cleanupStore 90 (200 * 86400)).1.books.Sublist cleanupStore.books ∧
    (mkBook "old" 1 "u" "n" (some (100 * 86400)) false none none ∈
        (clean_old_data cleanupStore 90 (200 * 86400)).1.books ↔
      (mkBook "old" 1 "u" "n" (some (100 * 86400)) false none none).approved = true ∨
      ∃ t, (mkBook "old" 1 "u" "n" (some (100 * 86400)) false none none).timestamp = some t ∧
        200 * 86400 - 90 * 86400 ≤ t) :=
  clean_old_data_spec cleanupStore 90 (200 * 86400)
    (mkBook "old" 1 "u" "n" (some (100 * 86400)) false none none)
    (by decide) (by decide)

/-! ## Link-normalization lemmas (C7, C10) -/

/-- Dropping a run of characters satisfying p appended before a character
that fails p, takeWhile p captures exactly the run. -/
theorem takeWhile_append_stop (p : Char → Bool) (l : List Char) (c : Char)
    (r : List Char) (hl : l.all p = true) (hc : p c = false) :
    (l ++ c :: r).takeWhile p = l := by
  induction l with
  | nil => simp [List.takeWhile, hc]
  | cons a as ih =>
    simp only [List.all_cons, Bool.and_eq_true] at hl
    simp [List.takeWhile, hl.1, ih hl.2]

/-- Every group extracted by searchPat is a nonempty run of id characters
(the captured group of the character class with a + quantifier). -/
theorem searchPat_all_id (lit : List Char) :
    ∀ s fid, searchPat lit s = some fid → fid ≠ [] ∧ fid.all isIdChar = true := by
  intro s
  induction s with
  | nil =>
    intro fid h
    simp [searchPat] at h
  | cons c rest ih =>
    intro fid h
    rw [searchPat] at h
    split at h
    · split at h
      · exact ih fid h
      · rename_i hne
        cases h
        refine ⟨fun hnil => hne ?_, List.all_takeWhile⟩
        rw [hnil]
        rfl
    · exact ih fid h

/-- validateCore either returns its input unchanged or returns the
canonical sharing URL of a nonempty id-character group. -/
theorem validateCore_output (s : List Char) :
    validateCore s = s ∨
    ∃ fid, fid ≠ [] ∧ fid.all isIdChar = true ∧ validateCore s = canonicalList fid := by
  unfold validateCore
  split
  · exact Or.inl rfl
  · split
    · rename_i fid heq
      exact Or.inr ⟨fid, (searchPat_all_id _ _ _ heq).1, (searchPat_all_id _ _ _ heq).2, rfl⟩
    · split
      · rename_i fid heq
        exact Or.inr ⟨fid, (searchPat_all_id _ _ _ heq).1, (searchPat_all_id _ _ _ heq).2, rfl⟩
      · split
        · rename_i fid heq
          exact Or.inr ⟨fid, (searchPat_all_id _ _ _ heq).1, (searchPat_all_id _ _ _ heq).2, rfl⟩
        · exact Or.inl rfl

/-- The canonical sharing URL mentions the drive.google.com domain. -/
theorem canonical_contains (fid : List Char) :
    containsSub (canonicalList fid) "drive.google.com".data = true := by
  simp +decide [canonicalList, containsSub, isPrefixChars]

set_option maxHeartbeats 1000000 in
/-- On the canonical sharing URL built from a nonempty id-character group,
the first pattern /file/d/ re-extracts exactly that group. -/
theorem canonical_search (fid : List Char) (h1 : fid ≠ [])
    (h2 : fid.all isIdChar = true) :
    searchPat "/file/d/".data (canonicalList fid) = some fid := by
  have hc : isIdChar '/' = false := by decide
  have htw := takeWhile_append_stop isIdChar fid '/' "view?usp=sharing".data h2 hc
  simp +decide [canonicalList, searchPat, isPrefixChars, htw, h1]

/-- The canonical sharing URL is a fixed point of validateCore. -/
theorem canonical_fixed (fid : List Char) (h1 : fid ≠ [])
    (h2 : fid.all isIdChar = true) :
    validateCore (canonicalList fid) = canonicalList fid := by
  have hne : (canonicalList fid).isEmpty = false := rfl
  unfold validateCore
  rw [hne, canonical_contains fid, canonical_search fid h1 h2]
  rfl

/-- C10: link normalization is idempotent at the level of character
lists: a pass-through input maps to itself again, and a rewritten input
yields the canonical URL, which normalizes to itself because the
/file/d/ pattern re-extracts the same file id. -/
theorem validateCore_idem (l : List Char) :
    validateCore (validateCore l) = validateCore l := by
  rcases validateCore_output l with h | ⟨fid, h1, h2, h⟩
  · rw [h]
    exact h
  · rw [h]
    exact canonical_fixed fid h1 h2

/-- C10 at the String level: applying Link Normalization twice yields the
same result as applying it once, for every input string. -/
theorem validate_link_idempotent (s : String) :
    validate_google_drive_link (validate_google_drive_link s) =
      validate_google_drive_link s :=
  congrArg String.mk (validateCore_idem s.data)

/-! ## C7 -/

/-- C7: the worked example maps usp=drive_link to usp=sharing; any link
that does not mention the drive.google.com domain passes through
unchanged; and any drive.google.com link on which the three extraction
patterns all fail passes through unchanged - normalization never rejects
an input. -/
theorem validate_link_normalization_spec (link1 link2 : String)
    (h1 : containsSub link1.data "drive.google.com".data = false)
    (h2a : searchPat "/file/d/".data link2.data = none)
    (h2b : searchPat "id=".data link2.data = none)
    (h2c : searchPat "/d/".data link2.data = none) :
    validate_google_drive_link "https://drive.google.com/file/d/ABC123/view?usp=drive_link" =
      "https://drive.google.com/file/d/ABC123/view?usp=sharing" ∧
    validate_google_drive_link link1 = link1 ∧
    validate_google_drive_link link2 = link2 := by
  refine ⟨by decide, ?_, ?_⟩
  · unfold validate_google_drive_link validateCore
    rw [h1]
    simp
  · unfold validate_google_drive_link validateCore
    rw [h2a, h2b, h2c]
    split
    · rfl
    · rfl

/-- Witness for C7: a non-drive link and a drive link with no file id
pattern, both returned unchanged. -/
theorem validate_link_normalization_spec_witness :
    validate_google_drive_link "https://drive.google.com/file/d/ABC123/view?usp=drive_link" =
      "https://drive.google.com/file/d/ABC123/view?usp=sharing" ∧
    validate_google_drive_link "https://example.com/not-drive" = "https://example.com/not-drive" ∧
    validate_google_drive_link "https://drive.google.com/drive/my-folder" =
      "https://drive.google.com/drive/my-folder" :=
  validate_link_normalization_spec "https://example.com/not-drive"
    "https://drive.google.com/drive/my-folder" (by decide) (by decide) (by decide)
    (by decide)

/-! ## Accumulator lemmas for the leaderboard (C2, C6, C8) -/

/-- Bumping a book leaves the entries of every other user id untouched. -/
theorem lookupUC_bumpUser_ne (acc : List (Int × UC)) (b : Book) (uid : Int)
    (h : uid ≠ b.submitter_id) :
    lookupUC (bumpUser acc b) uid = lookupUC acc uid := by
  induction acc with
  | nil =>
    have hne : b.submitter_id ≠ uid := fun he => h he.symm
    simp [bumpUser, lookupUC, hne]
  | cons p rest ih =>
    by_cases hp : p.1 = b.submitter_id
    · have hpu : p.1 ≠ uid := fun he => h (he.symm.trans hp)
      simp only [bumpUser, if_pos hp, lookupUC, if_neg hpu]
    · simp only [bumpUser, if_neg hp, lookupUC]
      by_cases hpu : p.1 = uid
      · simp only [if_pos hpu]
      · simp only [if_neg hpu, ih]

/-- Bumping a book updates exactly its submitter's entry: the count grows
by one (starting from one on first sight), and the stored username and
name are those of the first-seen book, never overwritten afterwards. -/
theorem lookupUC_bumpUser_eq (acc : List (Int × UC)) (b : Book) :
    lookupUC (bumpUser acc b) b.submitter_id =
      some (match lookupUC acc b.submitter_id with
            | some uc => { uc with count := uc.count + 1 }
            | none => ⟨1, b.submitter_username, b.submitter_name⟩) := by
  induction acc with
  | nil =>
    simp [bumpUser, lookupUC]
  | cons p rest ih =>
    by_cases hp : p.1 = b.submitter_id
    · simp only [bumpUser, if_pos hp, lookupUC, if_pos hp]
    · simp only [bumpUser, if_neg hp, lookupUC, if_neg hp, ih]

/-- An id is a key of the bumped accumulator exactly when it was already a
key or is the bumped book's submitter. -/
theorem mem_ucKeys_bumpUser (acc : List (Int × UC)) (b : Book) (uid : Int) :
    uid ∈ ucKeys (bumpUser acc b) ↔ uid ∈ ucKeys acc ∨ uid = b.submitter_id := by
  induction acc with
  | nil =>
    simp [bumpUser, ucKeys, eq_comm]
  | cons p rest ih =>
    by_cases hp : p.1 = b.submitter_id
    · simp only [bumpUser, if_pos hp, ucKeys, List.map_cons, List.mem_cons]
      constructor
      · rintro (he | hm)
        · exact Or.inl (Or.inl he)
        · exact Or.inl (Or.inr hm)
      · rintro ((he | hm) | he)
        · exact Or.inl he
        · exact Or.inr hm
        · exact Or.inl (he.trans hp.symm)
    · simp only [bumpUser, if_neg hp, ucKeys, List.map_cons, List.mem_cons] at ih ⊢
      rw [ih]
      tauto

/-- Bumping preserves distinctness of the accumulator's keys. -/
theorem nodup_ucKeys_bumpUser (acc : List (Int × UC)) (b : Book)
    (h : (ucKeys acc).Nodup) : (ucKeys (bumpUser acc b)).Nodup := by
  induction acc with
  | nil =>
    simp [bumpUser, ucKeys]
  | cons p rest ih =>
    simp only [ucKeys, List.map_cons, List.nodup_cons] at h
    by_cases hp : p.1 = b.submitter_id
    · simp only [bumpUser, if_pos hp, ucKeys, List.map_cons, List.nodup_cons]
      exact ⟨h.1, h.2⟩
    · simp only [bumpUser, if_neg hp, ucKeys, List.map_cons, List.nodup_cons]
      refine ⟨?_, ih h.2⟩
      intro hmem
      rcases (mem_ucKeys_bumpUser rest b p.1).mp hmem with hin | he
      · exact h.1 hin
      · exact hp he

/-- The whole counting loop preserves distinctness of keys. -/
theorem nodup_ucKeys_tally (bs : List Book) :
    ∀ acc, (ucKeys acc).Nodup → (ucKeys (tally bs acc)).Nodup := by
  induction bs with
  | nil => intro acc h; exact h
  | cons b rest ih =>
    intro acc h
    exact ih (bumpUser acc b) (nodup_ucKeys_bumpUser acc b h)

/-- An id has an entry exactly when it is among the keys. -/
theorem lookupUC_isSome_iff (acc : List (Int × UC)) (uid : Int) :
    (lookupUC acc uid).isSome = true ↔ uid ∈ ucKeys acc := by
  induction acc with
  | nil => simp [lookupUC, ucKeys]
  | cons p rest ih =>
    by_cases hp : p.1 = uid
    · simp [lookupUC, if_pos hp, ucKeys, hp]
    · simp only [lookupUC, if_neg hp, ucKeys, List.map_cons, List.mem_cons, ih]
      constructor
      · exact fun h => Or.inr h
      · rintro (he | hm)
        · exact absurd he.symm hp
        · exact hm

/-- When keys are distinct, membership of a pair in the accumulator
determines the lookup of its key. -/
theorem lookupUC_of_mem_nodup (acc : List (Int × UC)) (p : Int × UC)
    (hnd : (ucKeys acc).Nodup) (hmem : p ∈ acc) :
    lookupUC acc p.1 = some p.2 := by
  induction acc with
  | nil => cases hmem
  | cons q rest ih =>
    simp only [ucKeys, List.map_cons, List.nodup_cons] at hnd
    rcases List.mem_cons.mp hmem with he | hm
    · rw [he]
      simp [lookupUC]
    · have hq : q.1 ≠ p.1 := by
        intro he2
        exact hnd.1 (he2 ▸ List.mem_map_of_mem Prod.fst hm)
      simp only [lookupUC, if_neg hq]
      exact ih hnd.2 hm

/-- The count recorded after one bump: the bumped submitter gains one,
everyone else is untouched. -/
theorem countOf_bumpUser (acc : List (Int × UC)) (b : Book) (uid : Int) :
    countOf (bumpUser acc b) uid =
      countOf acc uid + (if uid = b.submitter_id then 1 else 0) := by
  by_cases h : uid = b.submitter_id
  · subst h
    unfold countOf
    rw [lookupUC_bumpUser_eq]
    cases hl : lookupUC acc b.submitter_id with
    | some uc => simp
    | none => simp
  · unfold countOf
    rw [lookupUC_bumpUser_ne acc b uid h]
    simp [h]

/-- The count recorded by the whole loop equals the number of processed
books by that submitter, on top of whatever the accumulator held. -/
theorem countOf_tally (bs : List Book) :
    ∀ acc uid, countOf (tally bs acc) uid =
      countOf acc uid + (bs.filter (fun b => b.submitter_id == uid)).length := by
  induction bs with
  | nil => intro acc uid; simp [tally]
  | cons b rest ih =>
    intro acc uid
    rw [tally, ih (bumpUser acc b) uid, countOf_bumpUser]
    by_cases h : uid = b.submitter_id
    · subst h
      simp [List.filter_cons]
      omega
    · have hb : (b.submitter_id == uid) = false :=
        beq_eq_false_iff_ne.mpr (fun he => h he.symm)
      simp [List.filter_cons, hb, h]

/-- Bumping never erases an existing entry. -/
theorem lookupUC_bumpUser_isSome (acc : List (Int × UC)) (b : Book) (uid : Int)
    (h : (lookupUC acc uid).isSome = true) :
    (lookupUC (bumpUser acc b) uid).isSome = true := by
  by_cases he : uid = b.submitter_id
  · subst he
    rw [lookupUC_bumpUser_eq]
    rfl
  · rw [lookupUC_bumpUser_ne acc b uid he]
    exact h

/-- The username and display name recorded for a user id that already has
an entry are never changed by the rest of the loop. -/
theorem unameOf_tally_present (bs : List Book) :
    ∀ acc uid, (lookupUC acc uid).isSome = true →
      unameOf (tally bs acc) uid = unameOf acc uid := by
  induction bs with
  | nil => intro acc uid _; rfl
  | cons b rest ih =>
    intro acc uid hsome
    rw [tally, ih (bumpUser acc b) uid (lookupUC_bumpUser_isSome acc b uid hsome)]
    by_cases he : uid = b.submitter_id
    · subst he
      unfold unameOf
      rw [lookupUC_bumpUser_eq]
      cases hl : lookupUC acc b.submitter_id with
      | some uc => simp
      | none => rw [hl] at hsome; cases hsome
    · unfold unameOf
      rw [lookupUC_bumpUser_ne acc b uid he]

/-- For a user id with no entry yet, the username and display name the
loop ends up recording are those of the first book by that submitter in
scan order. -/
theorem unameOf_tally_first (bs : List Book) :
    ∀ acc uid b0, lookupUC acc uid = none →
      bs.find? (fun b => b.submitter_id == uid) = some b0 →
      unameOf (tally bs acc) uid = some (b0.submitter_username, b0.submitter_name) := by
  induction bs with
  | nil =>
    intro acc uid b0 _ hf
    simp at hf
  | cons b rest ih =>
    intro acc uid b0 hnone hf
    by_cases he : b.submitter_id = uid
    · have hbeq : (b.submitter_id == uid) = true := by simp [he]
      rw [List.find?_cons, hbeq] at hf
      cases hf
      rw [tally]
      have hb : lookupUC (bumpUser acc b) uid = some ⟨1, b.submitter_username, b.submitter_name⟩ := by
        rw [← he] at hnone ⊢
        rw [lookupUC_bumpUser_eq, hnone]
      rw [unameOf_tally_present rest (bumpUser acc b) uid (by rw [hb]; rfl)]
      unfold unameOf
      rw [hb]
      rfl
    · have hbeq : (b.submitter_id == uid) = false := beq_eq_false_iff_ne.mpr he
      rw [List.find?_cons, hbeq] at hf
      rw [tally]
      refine ih (bumpUser acc b) uid b0 ?_ hf
      rw [lookupUC_bumpUser_ne acc b uid (fun h2 => he h2.symm)]
      exact hnone

/-- A key of the final accumulator either was a key initially or belongs
to some processed book's submitter. -/
theorem lookupUC_tally_isSome (bs : List Book) :
    ∀ acc uid, (lookupUC (tally bs acc) uid).isSome = true →
      (lookupUC acc uid).isSome = true ∨ ∃ b ∈ bs, b.submitter_id = uid := by
  induction bs with
  | nil =>
    intro acc uid h
    exact Or.inl h
  | cons b rest ih =>
    intro acc uid h
    rw [tally] at h
    rcases ih (bumpUser acc b) uid h with hs | ⟨b2, hb2, he2⟩
    · by_cases he : uid = b.submitter_id
      · exact Or.inr ⟨b, by simp, he.symm⟩
      · rw [lookupUC_bumpUser_ne acc b uid he] at hs
        exact Or.inl hs
    · exact Or.inr ⟨b2, by simp [hb2], he2⟩

/-- Membership in the final leaderboard implies membership in the raw
entries list (undo the take and the sort). -/
theorem mem_entries_of_mem_result (s : Store) (days : Option Int) (now : Int)
    (x : UserInfo × Nat) (h : x ∈ get_leaderboard_by_period s days now) :
    x ∈ leaderboard_entries s days now := by
  unfold get_leaderboard_by_period at h
  exact List.mem_mergeSort.mp (List.take_subset 10 _ h)

/-- Every pair in the leaderboard result corresponds to an entry of the
final accumulator whose key has distinct-keys lookup. -/
theorem result_entry_lookup (s : Store) (days : Option Int) (now : Int)
    (u : UserInfo) (c : Nat) (h : (u, c) ∈ get_leaderboard_by_period s days now) :
    lookupUC (tally (filtered_books s days now) []) u.id =
      some ⟨c, u.username, u.name⟩ := by
  have hmem := mem_entries_of_mem_result s days now (u, c) h
  unfold leaderboard_entries at hmem
  rcases List.mem_map.mp hmem with ⟨p, hp, he⟩
  have hnd : (ucKeys (tally (filtered_books s days now) [])).Nodup :=
    nodup_ucKeys_tally _ [] List.Pairwise.nil
  have hl := lookupUC_of_mem_nodup _ p hnd hp
  have hu : u = ⟨p.1, p.2.username, p.2.name⟩ := (Prod.mk.injEq _ _ _ _ |>.mp he).1.symm
  have hc : c = p.2.count := (Prod.mk.injEq _ _ _ _ |>.mp he).2.symm
  rw [hu, hc]
  exact hl

/-! ## C2 -/

/-- C2 as amended: every user shown on the leaderboard carries the
username and display name of the FIRST submission by that user
encountered during the scan of the filtered approved submissions (the
accumulator only sets these fields when a submitter is first seen),
not the last-seen one as the claim states. -/
theorem leaderboard_name_from_first_seen (s : Store) (days : Option Int)
    (now : Int) (u : UserInfo) (c : Nat)
    (hmem : (u, c) ∈ get_leaderboard_by_period s days now) :
    ∃ b, (filtered_books s days now).find? (fun b2 => b2.submitter_id == u.id) = some b ∧
      u.username = b.submitter_username ∧ u.name = b.submitter_name := by
  have hl := result_entry_lookup s days now u c hmem
  have hsome : (lookupUC (tally (filtered_books s days now) []) u.id).isSome = true := by
    rw [hl]; rfl
  rcases lookupUC_tally_isSome _ [] u.id hsome with hs | ⟨b1, hb1, he1⟩
  · cases hs
  · have hfs : ((filtered_books s days now).find? (fun b2 => b2.submitter_id == u.id)).isSome := by
      rw [List.find?_isSome]
      exact ⟨b1, hb1, by simp [he1]⟩
    rcases Option.isSome_iff_exists.mp hfs with ⟨b0, hb0⟩
    have hun := unameOf_tally_first (filtered_books s days now) [] u.id b0 rfl hb0
    unfold unameOf at hun
    rw [hl] at hun
    have := Option.some.inj hun
    exact ⟨b0, hb0, (Prod.mk.injEq _ _ _ _ |>.mp this).1, (Prod.mk.injEq _ _ _ _ |>.mp this).2⟩

/-- Two approved submissions by the same user whose username changed
between them: the scan records the OLD (first-seen) username. -/
def renameStore : Store :=
  { users := [],
    books := [mkBook "k1" 7 "old" "OldName" (some 0) true (some (some 10)) (some "a"),
              mkBook "k2" 7 "new" "NewName" (some 0) true (some (some 20)) (some "a")] }

/-- Counterexample for C2 as stated: the last-seen submission of user 7
carries username new, but the leaderboard reports username old, taken
from the first-seen submission. -/
theorem leaderboard_last_seen_counterexample :
    get_leaderboard_by_period renameStore none 0 = [(⟨7, "old", "OldName"⟩, 2)] ∧
    (renameStore.books.map (fun b => b.submitter_username)).getLast? = some "new" ∧
    ("old" : String) ≠ "new" := by
  refine ⟨?_, by decide, by decide⟩
  have he : leaderboard_entries renameStore none 0 = [(⟨7, "old", "OldName"⟩, 2)] := rfl
  unfold get_leaderboard_by_period
  rw [he, List.mergeSort_singleton]
  rfl

/-- Witness for C2's amended statement: applying the theorem on a
concrete two-book store shows the first-seen username old is reported. -/
theorem leaderboard_name_from_first_seen_witness :
    ∃ b, (filtered_books renameStore none 0).find? (fun b2 => b2.submitter_id == (7 : Int)) = some b ∧
      ("old" : String) = b.submitter_username ∧ ("OldName" : String) = b.submitter_name :=
  leaderboard_name_from_first_seen renameStore none 0 ⟨7, "old", "OldName"⟩ 2
    (by
      have he : leaderboard_entries renameStore none 0 = [(⟨7, "old", "OldName"⟩, 2)] := rfl
      unfold get_leaderboard_by_period
      rw [he, List.mergeSort_singleton]
      simp)

/-! ## C6 -/

/-- C6 as amended: for an integer window of d days the leaderboard counts,
per user, exactly the approved submissions whose approved_date is present,
parses, and is at least the cutoff now - d days - a lower bound only:
the code never compares against now from above, so the window is
effectively unbounded toward the future.  Submissions with a missing or
unparseable approved_date are skipped without aborting the aggregation,
and every count shown on the leaderboard agrees with this rule. -/
theorem leaderboard_window_count_spec (s : Store) (d now uid : Int)
    (u : UserInfo) (c : Nat)
    (hmem : (u, c) ∈ get_leaderboard_by_period s (some d) now) :
    countOf (tally (filtered_books s (some d) now) []) uid =
      (s.books.filter (fun b =>
        (b.submitter_id == uid) &&
          (b.approved &&
            (match b.approved_date with
             | some (some t) => decide (now - d * 86400 ≤ t)
             | _ => false)))).length ∧
    c = countOf (tally (filtered_books s (some d) now) []) u.id := by
  constructor
  · have h0 : countOf ([] : List (Int × UC)) uid = 0 := rfl
    rw [countOf_tally (filtered_books s (some d) now) [] uid, h0, Nat.zero_add]
    unfold filtered_books
    rw [List.filter_filter]
  · have hl := result_entry_lookup s (some d) now u c hmem
    unfold countOf
    rw [hl]

/-- One approved submission whose approved_date lies one day in the
future of the reference time 0. -/
def futureStore : Store :=
  { users := [],
    books := [mkBook "f1" 5 "u5" "User5" (some 0) true (some (some 86400)) (some "a")] }

/-- Counterexample for C6 as stated: with now = 0 the window of
leaderboard(7) claimed by the spec is the interval from -604800 to 0, yet
the submission approved at time 86400 - outside that interval - is
counted: the code checks only the lower bound. -/
theorem leaderboard_window_upper_bound_counterexample :
    get_leaderboard_by_period futureStore (some 7) 0 = [(⟨5, "u5", "User5"⟩, 1)] ∧
    (mkBook "f1" 5 "u5" "User5" (some 0) true (some (some 86400)) (some "a")).approved_date
      = some (some 86400) ∧
    ¬ ((86400 : Int) ≤ 0) := by
  refine ⟨?_, by decide, by decide⟩
  have he : leaderboard_entries futureStore (some 7) 0 = [(⟨5, "u5", "User5"⟩, 1)] := rfl
  unfold get_leaderboard_by_period
  rw [he, List.mergeSort_singleton]
  rfl

/-- Witness for C6's amended statement on the future-dated store. -/
theorem leaderboard_window_count_spec_witness :
    countOf (tally (filtered_books futureStore (some 7) 0) []) 5 =
      (futureStore.books.filter (fun b =>
        (b.submitter_id == (5 : Int)) &&
          (b.approved &&
            (match b.approved_date with
             | some (some t) => decide ((0 : Int) - 7 * 86400 ≤ t)
             | _ => false)))).length ∧
    (1 : Nat) = countOf (tally (filtered_books futureStore (some 7) 0) []) (5 : Int) :=
  leaderboard_window_count_spec futureStore 7 0 5 ⟨5, "u5", "User5"⟩ 1
    (by
      have he : leaderboard_entries futureStore (some 7) 0 = [(⟨5, "u5", "User5"⟩, 1)] := rfl
      unfold get_leaderboard_by_period
      rw [he, List.mergeSort_singleton]
      simp)

/-! ## C8 -/

/-- C8: for every store and every windowDays, the leaderboard result has
length at most 10 and is sorted in descending order of contribution
count - both unconditionally - and the sort is stable: any two entries
with equal counts stay in their aggregation (insertion) order, i.e. any
tied adjacent-or-not pair of the unsorted entries list survives as a
subsequence of the sorted list. -/
theorem leaderboard_order_spec (s : Store) (days : Option Int) (now : Int) :
    (get_leaderboard_by_period s days now).length ≤ 10 ∧
    (get_leaderboard_by_period s days now).Pairwise (fun x y => y.2 ≤ x.2) ∧
    (∀ a b : UserInfo × Nat, a.2 = b.2 →
      [a, b].Sublist (leaderboard_entries s days now) →
      [a, b].Sublist ((leaderboard_entries s days now).mergeSort countDesc)) := by
  have htrans : ∀ x y z : UserInfo × Nat, countDesc x y → countDesc y z → countDesc x z := by
    intro x y z hxy hyz
    simp only [countDesc, decide_eq_true_eq] at hxy hyz ⊢
    omega
  have htotal : ∀ x y : UserInfo × Nat, countDesc x y || countDesc y x := by
    intro x y
    simp only [countDesc, Bool.or_eq_true, decide_eq_true_eq]
    omega
  refine ⟨?_, ?_, ?_⟩
  · unfold get_leaderboard_by_period
    rw [List.length_take]
    exact Nat.min_le_left _ _
  · have hs := List.sorted_mergeSort htrans htotal (leaderboard_entries s days now)
    have hp : (get_leaderboard_by_period s days now).Pairwise (fun x y => countDesc x y) :=
      List.Pairwise.sublist (List.take_sublist 10 _) hs
    exact hp.imp (fun h => by simpa [countDesc] using h)
  · intro a b htie hsub
    exact List.pair_sublist_mergeSort htrans htotal (by simp [countDesc, htie]) hsub

/-- Two users with one approved contribution each, in this scan order. -/
def tieStore : Store :=
  { users := [],
    books := [mkBook "t1" 1 "alice" "Alice" (some 0) true (some (some 5)) (some "a"),
              mkBook "t2" 2 "bob" "Bob" (some 0) true (some (some 6)) (some "a")] }

/-- Witness for C8: on a concrete store the bounds hold and the tied
pair keeps its insertion order through the sort, discharging the
stability clause's hypotheses concretely. -/
theorem leaderboard_order_spec_witness :
    (get_leaderboard_by_period tieStore none 0).length ≤ 10 ∧
    (get_leaderboard_by_period tieStore none 0).Pairwise (fun x y => y.2 ≤ x.2) ∧
    [(⟨1, "alice", "Alice"⟩, 1), (⟨2, "bob", "Bob"⟩, 1)].Sublist
      ((leaderboard_entries tieStore none 0).mergeSort countDesc) :=
  ⟨(leaderboard_order_spec tieStore none 0).1,
   (leaderboard_order_spec tieStore none 0).2.1,
   (leaderboard_order_spec tieStore none 0).2.2
     (⟨1, "alice", "Alice"⟩, 1) (⟨2, "bob", "Bob"⟩, 1) rfl
     (by
       have he : leaderboard_entries tieStore none 0 =
           [(⟨1, "alice", "Alice"⟩, 1), (⟨2, "bob", "Bob"⟩, 1)] := rfl
       rw [he])⟩

end BookLibrary
